import Mathlib

/-!
Shallow embedding of the transform/quality engine of the e-commerce ETL
pipeline (src/transform.py) and proofs of the specified properties.

Python scalar cells are modelled by `PyVal`: floats as exact rationals,
`float('nan')` / pandas `NaT` as the `nan` constructor, timestamps as an
abstract integer epoch offset in seconds.  DataFrames are a column-name
list plus a list of rows (key/value association lists).
-/

namespace ETL

/-- A Python/pandas scalar cell value. Floats are modelled exactly as
rationals; `nan` stands for float NaN and pandas NaT; `date t` is a
timestamp `t` seconds after the epoch. -/
inductive PyVal where
  | none
  | nan
  | str (s : String)
  | int (n : ℤ)
  | float (q : ℚ)
  | bool (b : Bool)
  | date (t : ℤ)
deriving DecidableEq

/-- Python truthiness (`bool(v)`): None falsy, NaN truthy, "" falsy,
0 falsy, empty-check for the rest. -/
def PyVal.truthy : PyVal → Bool
  | .none => false
  | .nan => true
  | .str s => s ≠ ""
  | .int n => n ≠ 0
  | .float q => q ≠ 0
  | .bool b => b
  | .date _ => true

/-- Numeric value of a Python number (`bool` is an `int` subclass). -/
def PyVal.ratVal : PyVal → Option ℚ
  | .int n => some (n : ℚ)
  | .float q => some q
  | .bool b => some (if b then 1 else 0)
  | _ => Option.none

/-- Python `==` on cell values: NaN is unequal to everything (itself
included), numbers compare by value across int/float/bool, strings by
content, mixed kinds are unequal. -/
def pyEq (a b : PyVal) : Bool :=
  match a, b with
  | .nan, _ => false
  | _, .nan => false
  | .none, .none => true
  | .str s, .str t => s = t
  | .date s, .date t => s = t
  | a, b =>
    match a.ratVal, b.ratVal with
    | some x, some y => x = y
    | _, _ => false

/-- A record: association list from column name to cell value. -/
abbrev Row := List (String × PyVal)

/-- `row.get(k)`: value at key `k`, Python `None` when absent. -/
def Row.get (r : Row) (k : String) : PyVal :=
  match r.find? (fun p => p.1 == k) with
  | Option.some p => p.2
  | Option.none => PyVal.none

/-- `k in row`. -/
def Row.has (r : Row) (k : String) : Bool := r.any (fun p => p.1 == k)

/-- Set key `k` to `v`, replacing an existing binding. -/
def Row.set : Row → String → PyVal → Row
  | [], k, v => [(k, v)]
  | p :: ps, k, v => if p.1 = k then (k, v) :: ps else p :: Row.set ps k v

/-- A DataFrame: its column names and its rows. -/
structure DF where
  cols : List String
  rows : List Row
deriving DecidableEq

/-- `pd.isna` on a cell. -/
def isna (v : PyVal) : Bool :=
  match v with
  | .none => true
  | .nan => true
  | _ => false

/-- Canonical cell form under pandas `factorize` (the equality used by
`DataFrame.duplicated` and object-column `groupby`): every NA cell
(None, NaN, NaT) maps to one sentinel, numbers compare by Python `==`
across int/float/bool (`1 == 1.0 == True`), other values by their own
equality; two cells get the same factorization code exactly when their
canonical forms are structurally equal. -/
def factorKey (v : PyVal) : PyVal :=
  if isna v then PyVal.none
  else
    match v.ratVal with
    | some q => PyVal.float q
    | Option.none => v

/-- Value of a digit string (most significant first). -/
def digitsVal (l : List Char) : ℕ :=
  l.foldl (fun a c => 10 * a + (c.toNat - 48)) 0

/-- Optional exponent suffix of a Python float literal: either the end of
the input, or `e`/`E`, an optional sign and digits reaching the end. -/
def parseExpPart (cs : List Char) (v : ℚ) : Option ℚ :=
  match cs with
  | [] => some v
  | c :: t =>
    if c = 'e' ∨ c = 'E' then
      let p : Bool × List Char :=
        match t with
        | '-' :: u => (true, u)
        | '+' :: u => (false, u)
        | _ => (false, t)
      let ds := p.2.takeWhile Char.isDigit
      if ds.length = 0 ∨ p.2.drop ds.length ≠ [] then Option.none
      else if p.1 then some (v / (10 : ℚ) ^ digitsVal ds)
      else some (v * (10 : ℚ) ^ digitsVal ds)
    else Option.none

/-- Unsigned Python float literal: integer digits, optional fraction
(at least one digit overall), optional exponent. -/
def parseUnsigned (cs : List Char) : Option ℚ :=
  let ip := cs.takeWhile Char.isDigit
  let rest := cs.drop ip.length
  match rest with
  | '.' :: t =>
    let fp := t.takeWhile Char.isDigit
    let rest2 := t.drop fp.length
    if ip.length = 0 ∧ fp.length = 0 then Option.none
    else parseExpPart rest2 ((digitsVal ip : ℚ) + (digitsVal fp : ℚ) / (10 : ℚ) ^ fp.length)
  | _ =>
    if ip.length = 0 then Option.none
    else parseExpPart rest (digitsVal ip : ℚ)

/-- Sign handling of a Python float literal. -/
def parseFloatChars : List Char → Option ℚ
  | '-' :: t => (parseUnsigned t).map (fun q => -q)
  | '+' :: t => parseUnsigned t
  | cs => parseUnsigned cs

/-- A character matched by Python regex `\s` (ASCII), also the
whitespace `str.strip()` removes. -/
def pySpace (c : Char) : Bool :=
  c = ' ' ∨ c = '\t' ∨ c = '\n' ∨ c = '\r' ∨ c = '\x0b' ∨ c = '\x0c'

/-- `str.strip()`: drop leading and trailing whitespace. -/
def pyStrip (cs : List Char) : List Char :=
  ((cs.dropWhile pySpace).reverse.dropWhile pySpace).reverse

/-- Python `float(s)` on a string: strip surrounding whitespace, then a
signed decimal literal with optional exponent (`inf`/`nan` words and
digit-group underscores are not modelled; no input in this development
uses them). `Option.none` models the `ValueError` path. -/
def parsePyFloat (s : String) : Option ℚ :=
  parseFloatChars (pyStrip s.toList)

/-- `pd.to_numeric(cell, errors="coerce")`: NaN for nulls and
unparseable values, numeric value otherwise. -/
def toNumeric (v : PyVal) : Option ℚ :=
  match v with
  | .none => Option.none
  | .nan => Option.none
  | .int n => some (n : ℚ)
  | .float q => some q
  | .bool b => some (if b then 1 else 0)
  | .date _ => Option.none
  | .str s => parsePyFloat s

/-- The characters `_CURRENCY_RE` keeps (transform.py line 153): the
regex strips every character outside `[0-9.-]`. -/
def isAmountChar (c : Char) : Bool :=
  c.isDigit ∨ c = '.' ∨ c = '-'

/-- `_parse_amount` (transform.py lines 183–196): nulls give None, Python
numbers pass through as floats, anything else is rendered with `str`,
stripped to `[0-9.-]` and parsed with `float`; empty or unparseable gives
None.  `str()` of a timestamp always yields an unparseable string (it
contains several dashes and colons), modelled directly as None. -/
def parseAmount (v : PyVal) : Option ℚ :=
  match v with
  | .none => Option.none
  | .nan => Option.none
  | .int n => some (n : ℚ)
  | .float q => some q
  | .bool b => some (if b then 1 else 0)
  | .date _ => Option.none
  | .str s =>
    let cs := s.toList.filter isAmountChar
    if cs = [] then Option.none else parseFloatChars cs

/-- `rate_map.get(row_currency, 1.0)`: the rate map is keyed by currency
code strings, so non-string cells fall back to the default 1.0. -/
def lookupRate (rateMap : List (String × ℚ)) (cur : PyVal) : ℚ :=
  match cur with
  | .str c =>
    match rateMap.find? (fun p => p.1 == c) with
    | Option.some p => p.2
    | Option.none => 1
  | _ => 1

/-- `normalize_currency` (transform.py lines 156–215), the
`<amount_col>_normalized` output column.  `df[amount_col]` at line 198
raises KeyError when the amount column is absent, modelled as
`Option.none`.  The live-FX branch (lines 167–181) only fires when
`rate_map` is empty, and its failure path leaves the rate map empty; the
model takes the rate map as given, which covers both the caller-supplied
case and the fetch-failure degrade. -/
def normalize_currency (df : DF) (amount_col : String) (currency_col : Option String)
    (rate_map : List (String × ℚ)) : Option (List (Option ℚ)) :=
  if amount_col ∈ df.cols then
    some
      (match currency_col with
      | Option.some cc =>
        if cc ≠ "" ∧ cc ∈ df.cols then
          df.rows.map (fun r =>
            match parseAmount (Row.get r amount_col) with
            | Option.some a => some (a * lookupRate rate_map (Row.get r cc))
            | Option.none => Option.none)
        else df.rows.map (fun r => parseAmount (Row.get r amount_col))
      | Option.none => df.rows.map (fun r => parseAmount (Row.get r amount_col)))
  else Option.none

/-- One cell of an optional adjustment column of `calculate_order_total`:
present and truthy column name required, coerced with
`pd.to_numeric(..).fillna(0)`. -/
def adjCell (df : DF) (c : Option String) (r : Row) : ℚ :=
  match c with
  | Option.some cn =>
    if cn ≠ "" ∧ cn ∈ df.cols then (toNumeric (Row.get r cn)).getD 0 else 0
  | Option.none => 0

/-- `calculate_order_total` (transform.py lines 240–260), the `out_col`
column: `price*qty - discount + tax + shipping`, with unparseable price
cells coerced to 0 and unparseable qty cells to 1.  When the price or
qty column is absent, `df.get(col, scalar)` returns its scalar default
and `pd.to_numeric(scalar)` returns a scalar again, which has no
`.fillna`: lines 246–247 raise AttributeError, modelled as
`Option.none`. -/
def calculate_order_total (df : DF) (price_col qty_col : String)
    (discount_col tax_col shipping_col : Option String) : Option (List ℚ) :=
  if price_col ∈ df.cols ∧ qty_col ∈ df.cols then
    some (df.rows.map (fun r =>
      (toNumeric (Row.get r price_col)).getD 0 * (toNumeric (Row.get r qty_col)).getD 1
        - adjCell df discount_col r + adjCell df tax_col r + adjCell df shipping_col r))
  else Option.none

/-- `calculate_order_total` as a DataFrame transformer: writes the
`out_col` column (a float column, one value per row); fails exactly when
the column computation does. -/
def calculate_order_total_df (df : DF) (price_col qty_col : String)
    (discount_col tax_col shipping_col : Option String) (out_col : String) : Option DF :=
  (calculate_order_total df price_col qty_col discount_col tax_col shipping_col).map
    (fun totals =>
      { cols := if out_col ∈ df.cols then df.cols else df.cols ++ [out_col]
        rows := (df.rows.zip totals).map (fun p => Row.set p.1 out_col (PyVal.float p.2)) })

/-- `DISPOSABLE_EMAIL_DOMAINS` (transform.py line 296). -/
def DISPOSABLE_EMAIL_DOMAINS : List String :=
  ["mailinator.com", "10minutemail.com", "tempmail.com", "trashmail.com"]

/-- `str.split(sep)` for a one-character separator: the (possibly empty)
chunks between occurrences of `sep`. -/
def splitChar (sep : Char) : List Char → List (List Char)
  | [] => [[]]
  | c :: t =>
    match splitChar sep t with
    | [] => [[]]
    | h :: r => if c = sep then [] :: h :: r else (c :: h) :: r

/-- `str.lower()` (ASCII case folding, which covers every domain in this
development). -/
def lowerStr (s : String) : String := String.mk (s.toList.map Char.toLower)

/-- `_email_domain` (transform.py lines 311–315): falsy or non-string
emails give None; otherwise split on `@` and, when that yields exactly
two parts, return the lower-cased second part. -/
def emailDomain (v : PyVal) : Option String :=
  match v with
  | .str s =>
    if s = "" then Option.none
    else
      match splitChar '@' s.toList with
      | [_, d] => some (lowerStr (String.mk d))
      | _ => Option.none
  | _ => Option.none

/-- The disposable-email rule of `flag_fraud` (lines 334–337): +3 when the
domain is truthy (nonempty) and in the suspicious set. -/
def emailRuleScore (susp : List String) (v : PyVal) : ℕ :=
  match emailDomain v with
  | Option.some d => if d ≠ "" ∧ d ∈ susp then 3 else 0
  | Option.none => 0

/-- `float(ot)` with the guards of flag_fraud lines 322–326: None and NaN
short-circuit to 0.0, and any exception from `float()` (non-numeric
strings, timestamps) is caught and also yields 0.0. -/
def coerceTotal (v : PyVal) : ℚ :=
  match v with
  | .none => 0
  | .nan => 0
  | .int n => (n : ℚ)
  | .float q => q
  | .bool b => if b then 1 else 0
  | .date _ => 0
  | .str s => (parsePyFloat s).getD 0

/-- Per-record fraud score, the loop body of `flag_fraud`
(transform.py lines 319–345).  `susp` is the already-unioned
suspicious-domain set of line 309. -/
def fraudScore (thresh : ℚ) (susp : List String) (r : Row) : ℕ :=
  (if thresh ≤ coerceTotal (Row.get r "order_total") then 3 else 0)
  + (if PyVal.truthy (Row.get r "shipping_country")
        ∧ PyVal.truthy (Row.get r "billing_country")
        ∧ pyEq (Row.get r "shipping_country") (Row.get r "billing_country") = false
     then 2 else 0)
  + emailRuleScore susp (Row.get r "email")
  + (if ¬ PyVal.truthy (Row.get r "billing_name")
        ∨ ¬ PyVal.truthy (Row.get r "billing_address")
     then 1 else 0)

/-- `flag_fraud` (transform.py lines 299–349): the added
`(fraud_score, fraud_flag)` columns; flag is `score >= 4`; the caller set
is unioned with the built-in disposable domains (line 309). -/
def flag_fraud (df : DF) (thresh : ℚ) (suspicious_email_domains : List String) :
    List (ℕ × Bool) :=
  let susp := suspicious_email_domains ++ DISPOSABLE_EMAIL_DOMAINS
  df.rows.map (fun r => (fraudScore thresh susp r, decide (4 ≤ fraudScore thresh susp r)))

/-- `str(v)` for the cell values the validator renders into issue codes. -/
def pyStr (v : PyVal) : String :=
  match v with
  | .none => "None"
  | .nan => "nan"
  | .str s => s
  | .int n => toString n
  | .float q => toString q
  | .bool b => if b then "True" else "False"
  | .date t => toString t

/-- A character matched by `[^@\s]`. -/
def atomChar (c : Char) : Bool := ¬ (c = '@' ∨ pySpace c)

/-- Whether `re.match(r"[^@\s]+@[^@\s]+\.[^@\s]+", s)` succeeds: some
prefix of `s` matches.  The local part can only stop at the first `@`
of the string; after that `@`, the remaining two groups and the dot are
all consumed inside the maximal `[^@\s]` run, so a match exists exactly
when that run contains a `.` that is neither its first nor its last
character. -/
def emailMatches (s : String) : Bool :=
  let cs := s.toList
  let loc := cs.takeWhile (fun c => c ≠ '@')
  if loc.length = 0 then false
  else if loc.any pySpace then false
  else
    match cs.drop loc.length with
    | '@' :: rest => (((rest.takeWhile atomChar).drop 1).dropLast).contains '.'
    | _ => false

/-- Default required fields of `validate_orders` (line 360). -/
def defaultRequired : List String := ["order_id", "customer_id", "order_date", "order_total"]

/-- Default allowed statuses of `validate_orders` (line 361). -/
def defaultAllowed : List String := ["paid", "pending", "refunded", "cancelled"]

/-- Per-record issue list, the loop body of `validate_orders`
(transform.py lines 365–380): `missing_<f>` when `not row.get(f) and
row.get(f) != 0` (Python `!=`, so `0`, `0.0` and `False` are exempt);
`invalid_status:<v>` when a truthy status is `==`-equal to no allowed
value; `invalid_email` when a truthy email fails the regex on `str(e)`. -/
def issuesOf (required allowed : List String) (r : Row) : List String :=
  ((required.filter (fun f =>
      ¬ PyVal.truthy (Row.get r f) ∧ pyEq (Row.get r f) (PyVal.int 0) = false)).map
    (fun f => "missing_" ++ f))
  ++ (if Row.has r "status" ∧ PyVal.truthy (Row.get r "status")
        ∧ ¬ allowed.any (fun a => pyEq (Row.get r "status") (PyVal.str a))
      then ["invalid_status:" ++ pyStr (Row.get r "status")] else [])
  ++ (if PyVal.truthy (Row.get r "email") ∧ ¬ emailMatches (pyStr (Row.get r "email"))
      then ["invalid_email"] else [])

/-- `validate_orders` (transform.py lines 352–383): the added
`validation_issues` column.  The function is total — it never raises. -/
def validate_orders (df : DF) (required allowed : List String) : List (List String) :=
  df.rows.map (issuesOf required allowed)

/-- The non-null values of a column. -/
def nonNull {α : Type} (col : List (Option α)) : List α := col.filterMap id

/-- Insert into a sorted list of rationals. -/
def insertRat (x : ℚ) : List ℚ → List ℚ
  | [] => [x]
  | y :: ys => if x ≤ y then x :: y :: ys else y :: insertRat x ys

/-- Insertion sort on rationals. -/
def sortRats : List ℚ → List ℚ
  | [] => []
  | x :: xs => insertRat x (sortRats xs)

/-- `Series.median` (skipna): middle of the sorted values, or the mean of
the two middle values; NaN (None) when there are no values. -/
def medianQ (l : List ℚ) : Option ℚ :=
  let s := sortRats l
  let n := s.length
  if n = 0 then Option.none
  else if n % 2 = 1 then s.get? (n / 2)
  else
    match s.get? (n / 2 - 1), s.get? (n / 2) with
    | some a, some b => some ((a + b) / 2)
    | _, _ => Option.none

/-- `Series.mean` (skipna): NaN (None) when there are no values. -/
def meanQ (l : List ℚ) : Option ℚ :=
  if l.length = 0 then Option.none else some (l.sum / l.length)

/-- `Series.fillna(method='ffill')`: each null takes the closest earlier
non-null value; `prev` is that value for the head position. -/
def ffillCol {α : Type} : List (Option α) → Option α → List (Option α)
  | [], _ => []
  | c :: cs, prev =>
    match c with
    | Option.some v => some v :: ffillCol cs (some v)
    | Option.none => prev :: ffillCol cs prev

/-- `Series.fillna(method='bfill')`. -/
def bfillCol {α : Type} (col : List (Option α)) : List (Option α) :=
  (ffillCol col.reverse Option.none).reverse

/-- `Series.fillna(v)` with a scalar. -/
def fillnaCol {α : Type} (col : List (Option α)) (v : α) : List (Option α) :=
  col.map (fun c =>
    match c with
    | Option.some x => some x
    | Option.none => some v)

/-- Numeric imputation strategies of `impute_missing` (any unrecognized
string falls into `other`, which fills with 0). -/
inductive NumStrategy where
  | median
  | mean
  | zero
  | ffill
  | bfill
  | other
deriving DecidableEq

/-- `impute_missing`, numeric-column branch (transform.py lines 69–83):
compute the strategy value, degrade a null value to 0 (lines 81–82) and
fill; `ffill`/`bfill` fill directionally instead. -/
def imputeNumeric (strat : NumStrategy) (col : List (Option ℚ)) : List (Option ℚ) :=
  match strat with
  | .ffill => ffillCol col Option.none
  | .bfill => bfillCol col
  | .median => fillnaCol col ((medianQ (nonNull col)).getD 0)
  | .mean => fillnaCol col ((meanQ (nonNull col)).getD 0)
  | .zero => fillnaCol col 0
  | .other => fillnaCol col 0

/-- Categorical imputation strategies of `impute_missing` (any
unrecognized string falls into `other`, which fills with ""). -/
inductive CatStrategy where
  | mode
  | unknown
  | ffill
  | bfill
  | other
deriving DecidableEq

/-- `Series.mode(dropna=True).iloc[0]`: a most frequent value, smallest
such value first (pandas returns the modes sorted). -/
def modeStr (l : List String) : Option String :=
  l.foldl
    (fun best x =>
      match best with
      | Option.none => some x
      | Option.some b =>
        if l.count x > l.count b ∨ (l.count x = l.count b ∧ x < b) then some x else some b)
    Option.none

/-- `impute_missing`, categorical-column branch (transform.py lines
100–113): mode (empty mode degrades to ""), the `<unknown>` sentinel,
directional fills, or "" for an unrecognized strategy. -/
def imputeCategorical (strat : CatStrategy) (col : List (Option String)) :
    List (Option String) :=
  match strat with
  | .mode => fillnaCol col ((modeStr (nonNull col)).getD "")
  | .unknown => fillnaCol col "<unknown>"
  | .ffill => ffillCol col Option.none
  | .bfill => bfillCol col
  | .other => fillnaCol col ""

/-- Datetime imputation strategies of `impute_missing` (an unrecognized
string leaves the column unchanged, lines 96–97). -/
inductive DtStrategy where
  | ffill
  | bfill
  | epoch
  | other
deriving DecidableEq

/-- `impute_missing`, datetime-column branch (transform.py lines 85–97),
on an already-parsed timestamp column; epoch fills with 1970-01-01,
i.e. timestamp 0. -/
def imputeDatetime (strat : DtStrategy) (col : List (Option ℤ)) : List (Option ℤ) :=
  match strat with
  | .ffill => ffillCol col Option.none
  | .bfill => bfillCol col
  | .epoch => fillnaCol col 0
  | .other => col

/-- `pd.to_datetime(cell, errors="coerce")` as used by `calculate_clv`:
already-parsed timestamps pass through, nulls coerce to NaT.  Calendar
parsing of date strings is outside this model (the pipeline normalizes
datetimes before CLV); a cell that is not already a timestamp coerces to
NaT here. -/
def parseDate (v : PyVal) : Option ℤ :=
  match v with
  | .date t => some t
  | _ => Option.none

/-- `Series.max` (skipna) on a timestamp column: NaT when no values. -/
def maxDate (l : List ℤ) : Option ℤ :=
  l.foldl
    (fun acc t =>
      match acc with
      | Option.none => some t
      | Option.some m => some (max m t))
    Option.none

/-- One output row of `calculate_clv`. -/
structure CLVRow where
  customer : PyVal
  clv : ℚ
  total_orders : ℕ
  avg_order_value : ℚ
  recency_days : Option ℤ
  frequency : ℕ
deriving DecidableEq

/-- The `order_total` cell used by `calculate_clv` (line 269):
`pd.to_numeric(df[col], errors="coerce").fillna(0)` elementwise.  This
is only reached when the column is present — with it absent,
`df.get(col, 0)` yields the scalar 0 and `pd.to_numeric(0)` is a scalar
with no `.fillna`, so line 269 raises (see `calculate_clv`). -/
def clvTotalCell (total_col : String) (r : Row) : ℚ :=
  (toNumeric (Row.get r total_col)).getD 0

/-- The parsed `order_date` cell used by `calculate_clv` (line 270):
`pd.to_datetime(df.get("order_date", None), errors="coerce")` — NaT
broadcasts when the column is absent. -/
def clvDateCell (df : DF) (r : Row) : Option ℤ :=
  if "order_date" ∈ df.cols then parseDate (Row.get r "order_date") else Option.none

/-- Seconds in a day; `Timedelta.days` floors the quotient. -/
def secondsPerDay : ℤ := 86400

/-- The distinct group keys of `df.groupby(customer_col)`: NA keys
dropped, remaining keys identified up to factorize/hash equality
(`factorKey`). -/
def clvKeys (df : DF) (customer_col : String) : List PyVal :=
  ((df.rows.filter (fun r => ¬ isna (Row.get r customer_col))).map
    (fun r => factorKey (Row.get r customer_col))).dedup

/-- The rows of one `groupby` group: non-NA key equal to `c` under
factorize/hash equality. -/
def clvGroup (df : DF) (customer_col : String) (c : PyVal) : List Row :=
  df.rows.filter (fun r =>
    ¬ isna (Row.get r customer_col) ∧ factorKey (Row.get r customer_col) = c)

/-- One aggregated row of `calculate_clv` (transform.py lines 282–292)
for the group keyed by `c`. -/
def clvBuildRow (df : DF) (customer_col total_col : String) (now : ℤ) (c : PyVal) :
    CLVRow :=
  let g := clvGroup df customer_col c
  let totals := g.map (clvTotalCell total_col)
  { customer := c
    clv := totals.sum
    total_orders := totals.length
    avg_order_value := totals.sum / totals.length
    recency_days := (maxDate (g.filterMap (clvDateCell df))).map
      (fun t => Int.fdiv (now - t) secondsPerDay)
    frequency := totals.length }

/-- `calculate_clv` (transform.py lines 263–293).  `now` is the value of
`pd.Timestamp.utcnow()` read during the call, made timezone-naive (lines
271–281), in epoch seconds.  An absent totals column makes line 269
raise AttributeError (scalar `.fillna`), and an absent customer column
makes `groupby` raise KeyError at line 282: both are `Option.none`.
`groupby` drops NA keys and groups keys equal under factorize/hash
equality, i.e. equal `factorKey` forms (the emitted key is modelled in
that canonical form; group-key ordering, which pandas sorts, is not
load-bearing for any claim and is first-occurrence here).  `count`
counts non-null cells, and the totals column has just been
`fillna(0)`-ed, so it is the group size; a group is never empty, so the
`mean` is its sum over its size (and line 291's `fillna(0)` on it is a
no-op, matched by `q / 0 = 0`). -/
def calculate_clv (df : DF) (customer_col total_col : String) (now : ℤ) :
    Option (List CLVRow) :=
  if total_col ∈ df.cols ∧ customer_col ∈ df.cols then
    some ((clvKeys df customer_col).map (clvBuildRow df customer_col total_col now))
  else Option.none

/-- The full stage pipeline of claim C9 on an already-normalized batch:
order-total derivation, then fraud flagging, validation and CLV on the
enriched frame; a stage that raises aborts the run (`Option.none`).
`now` is the clock reading `calculate_clv` performs. -/
def stage_pipeline (df : DF) (thresh : ℚ) (susp required allowed : List String) (now : ℤ) :
    Option (DF × List (ℕ × Bool) × List (List String) × List CLVRow) :=
  (calculate_order_total_df df "price" "quantity"
      Option.none Option.none Option.none "order_total").bind
    (fun df1 => (calculate_clv df1 "customer_id" "order_total" now).map
      (fun clv =>
        (df1, flag_fraud df1 thresh susp, validate_orders df1 required allowed, clv)))

/-- A CLV row with its clock-dependent field blanked. -/
def CLVRow.noRecency (c : CLVRow) : CLVRow :=
  { c with recency_days := Option.none }

/-- Whether an order total parses to a float, the spec reading of claim
C1: missing and unparseable totals do not parse (they "count as 0 and
never trigger" the high-value rule). -/
def pyFloatOpt (v : PyVal) : Option ℚ :=
  match v with
  | .int n => some (n : ℚ)
  | .float q => some q
  | .bool b => some (if b then 1 else 0)
  | .str s => parsePyFloat s
  | _ => Option.none

/-- The fraud score exactly as claim C1 words it (spec-side definition
for the refinement comparison): +3 when the order total parses to a
float at or above the threshold, +2 for present-and-differing countries,
+3 by the disposable-email rule, +1 for a falsy billing name or address. -/
def specFraudScore (thresh : ℚ) (susp : List String) (r : Row) : ℕ :=
  (match pyFloatOpt (Row.get r "order_total") with
   | Option.some v => if thresh ≤ v then 3 else 0
   | Option.none => 0)
  + (if PyVal.truthy (Row.get r "shipping_country")
        ∧ PyVal.truthy (Row.get r "billing_country")
        ∧ pyEq (Row.get r "shipping_country") (Row.get r "billing_country") = false
     then 2 else 0)
  + emailRuleScore susp (Row.get r "email")
  + (if ¬ PyVal.truthy (Row.get r "billing_name")
        ∨ ¬ PyVal.truthy (Row.get r "billing_address")
     then 1 else 0)

/-- The concrete price/quantity frame of claim C3. -/
def otExampleDF : DF :=
  ⟨["price", "quantity"],
    [[("price", PyVal.int 10), ("quantity", PyVal.int 2)],
     [("price", PyVal.int 5), ("quantity", PyVal.int 3)]]⟩

/-- A one-order normalized frame used to compare two pipeline runs: the
derived order total is 10, the single order is dated at the epoch. -/
def pipeExampleDF : DF :=
  ⟨["customer_id", "price", "quantity", "order_date"],
    [[("customer_id", PyVal.str "c"), ("price", PyVal.int 10),
      ("quantity", PyVal.int 1), ("order_date", PyVal.date 0)]]⟩

theorem Row.get_set (r : Row) (k : String) (v : PyVal) : Row.get (Row.set r k v) k = v := by
  induction r with
  | nil => simp [Row.set, Row.get, List.find?]
  | cons p ps ih =>
    by_cases h : p.1 = k
    · simp [Row.set, if_pos h, Row.get, List.find?]
    · have hb : (p.1 == k) = false := beq_eq_false_iff_ne.mpr h
      simp only [Row.set, if_neg h]
      simpa [Row.get, List.find?, hb] using ih

theorem zip_map_self {α β : Type} (l : List α) (f : α → β) :
    l.zip (l.map f) = l.map (fun a => (a, f a)) := by
  induction l with
  | nil => simp
  | cons a as ih => simp [ih]

theorem string_append_right_inj (s t u : String) (h : s ++ t = s ++ u) : t = u := by
  have hd := congrArg String.data h
  rw [String.data_append, String.data_append] at hd
  exact String.ext (List.append_cancel_left hd)

theorem missing_ne_email (f : String) : ("missing_" ++ f) ≠ "invalid_email" := by
  intro h
  have hd := congrArg String.data h
  rw [String.data_append, show "missing_".data = ['m','i','s','s','i','n','g','_'] from rfl]
    at hd
  simp at hd

theorem missing_ne_status (f x : String) :
    ("missing_" ++ f) ≠ ("invalid_status:" ++ x) := by
  intro h
  have hd := congrArg String.data h
  rw [String.data_append, String.data_append,
    show "missing_".data = ['m','i','s','s','i','n','g','_'] from rfl,
    show "invalid_status:".data
      = ['i','n','v','a','l','i','d','_','s','t','a','t','u','s',':'] from rfl] at hd
  simp at hd

theorem status_ne_email (x : String) : ("invalid_status:" ++ x) ≠ "invalid_email" := by
  intro h
  have hl := congrArg String.length h
  rw [String.length_append, show "invalid_status:".length = 15 from rfl,
    show "invalid_email".length = 13 from rfl] at hl
  omega

theorem mem_missing_iff (required allowed : List String) (r : Row) (f : String) :
    ("missing_" ++ f) ∈ issuesOf required allowed r ↔
      f ∈ required ∧ ¬ PyVal.truthy (Row.get r f)
        ∧ pyEq (Row.get r f) (PyVal.int 0) = false := by
  unfold issuesOf
  simp only [List.mem_append, List.mem_map, List.mem_filter]
  constructor
  · rintro ((⟨g, hg, he⟩ | h) | h)
    · obtain ⟨hgr, hcond⟩ := hg
      have hgf : g = f := string_append_right_inj _ _ _ he
      subst hgf
      have := of_decide_eq_true hcond
      exact ⟨hgr, this.1, this.2⟩
    · by_cases hc : Row.has r "status" ∧ PyVal.truthy (Row.get r "status")
          ∧ ¬ allowed.any (fun a => pyEq (Row.get r "status") (PyVal.str a))
      · rw [if_pos hc] at h
        exact absurd (List.mem_singleton.mp h) (missing_ne_status f _)
      · rw [if_neg hc] at h
        exact absurd h (List.not_mem_nil _)
    · by_cases hc : PyVal.truthy (Row.get r "email")
          ∧ ¬ emailMatches (pyStr (Row.get r "email"))
      · rw [if_pos hc] at h
        exact absurd (List.mem_singleton.mp h) (missing_ne_email f)
      · rw [if_neg hc] at h
        exact absurd h (List.not_mem_nil _)
  · rintro ⟨hf, h1, h2⟩
    exact Or.inl (Or.inl ⟨f, ⟨hf, decide_eq_true ⟨h1, h2⟩⟩, rfl⟩)

theorem mem_email_iff (required allowed : List String) (r : Row) :
    "invalid_email" ∈ issuesOf required allowed r ↔
      PyVal.truthy (Row.get r "email") ∧ ¬ emailMatches (pyStr (Row.get r "email")) := by
  unfold issuesOf
  simp only [List.mem_append, List.mem_map, List.mem_filter]
  constructor
  · rintro ((⟨g, _, he⟩ | h) | h)
    · exact absurd he (missing_ne_email g)
    · by_cases hc : Row.has r "status" ∧ PyVal.truthy (Row.get r "status")
          ∧ ¬ allowed.any (fun a => pyEq (Row.get r "status") (PyVal.str a))
      · rw [if_pos hc] at h
        exact absurd (List.mem_singleton.mp h).symm (status_ne_email _)
      · rw [if_neg hc] at h
        exact absurd h (List.not_mem_nil _)
    · by_cases hc : PyVal.truthy (Row.get r "email")
          ∧ ¬ emailMatches (pyStr (Row.get r "email"))
      · exact hc
      · rw [if_neg hc] at h
        exact absurd h (List.not_mem_nil _)
  · intro hc
    exact Or.inr (by rw [if_pos hc]; exact List.mem_singleton.mpr rfl)

theorem mem_status_iff (required allowed : List String) (r : Row)
    (hhas : Row.has r "status") (htr : PyVal.truthy (Row.get r "status")) :
    ("invalid_status:" ++ pyStr (Row.get r "status")) ∈ issuesOf required allowed r ↔
      ¬ allowed.any (fun a => pyEq (Row.get r "status") (PyVal.str a)) := by
  unfold issuesOf
  simp only [List.mem_append, List.mem_map, List.mem_filter]
  constructor
  · rintro ((⟨g, _, he⟩ | h) | h)
    · exact absurd he (missing_ne_status g _)
    · by_cases hc : Row.has r "status" ∧ PyVal.truthy (Row.get r "status")
          ∧ ¬ allowed.any (fun a => pyEq (Row.get r "status") (PyVal.str a))
      · exact hc.2.2
      · rw [if_neg hc] at h
        exact absurd h (List.not_mem_nil _)
    · by_cases hc : PyVal.truthy (Row.get r "email")
          ∧ ¬ emailMatches (pyStr (Row.get r "email"))
      · rw [if_pos hc] at h
        exact absurd (List.mem_singleton.mp h) (status_ne_email _)
      · rw [if_neg hc] at h
        exact absurd h (List.not_mem_nil _)
  · intro hna
    exact Or.inl (Or.inr (by rw [if_pos ⟨hhas, htr, hna⟩]; exact List.mem_singleton.mpr rfl))

/-- C3: when the price and qty columns are present, `calculate_order_total`
writes, for every row, the always-float cell
`price*qty - discount + tax + shipping`, where an unparseable qty
defaults to 1 and the other inputs to 0; an absent price or qty column
raises; and `price=[10,5]`, `qty=[2,3]` produces exactly `[20,15]`. -/
theorem C3_calculate_order_total :
    (∀ (df : DF) (pc qc : String) (dc tc sc : Option String) (oc : String),
      pc ∈ df.cols → qc ∈ df.cols →
        ∃ out : DF,
          calculate_order_total_df df pc qc dc tc sc oc = some out
          ∧ out.rows.length = df.rows.length
          ∧ ∀ i : ℕ,
            (out.rows.get? i).map (fun r => Row.get r oc) =
              (df.rows.get? i).map (fun r => PyVal.float
                ((toNumeric (Row.get r pc)).getD 0 * (toNumeric (Row.get r qc)).getD 1
                  - adjCell df dc r + adjCell df tc r + adjCell df sc r)))
    ∧ (∀ (df : DF) (pc qc : String) (dc tc sc : Option String),
        pc ∉ df.cols ∨ qc ∉ df.cols →
          calculate_order_total df pc qc dc tc sc = Option.none)
    ∧ calculate_order_total otExampleDF
        "price" "quantity" Option.none Option.none Option.none = some [20, 15] := by
  refine ⟨?_, ?_, ?_⟩
  · intro df pc qc dc tc sc oc hp hq
    have hcond : pc ∈ df.cols ∧ qc ∈ df.cols := ⟨hp, hq⟩
    unfold calculate_order_total_df calculate_order_total
    rw [if_pos hcond]
    refine ⟨_, rfl, ?_, ?_⟩
    · simp [zip_map_self, List.map_map]
    · intro i
      simp only [zip_map_self, List.map_map, List.get?_map, Function.comp]
      cases df.rows.get? i with
      | none => rfl
      | some r => simp [Row.get_set]
  · intro df pc qc dc tc sc h
    unfold calculate_order_total
    rw [if_neg (by tauto)]
  · simp +decide [calculate_order_total, otExampleDF, adjCell, toNumeric, Row.get,
      List.find?]
    norm_num

/-- Witness for C3 at the concrete price/quantity frame. -/
theorem C3_witness :
    ("price" : String) ∈ otExampleDF.cols
    ∧ ("quantity" : String) ∈ otExampleDF.cols
    ∧ ∃ out : DF,
        calculate_order_total_df otExampleDF "price" "quantity"
            Option.none Option.none Option.none "order_total" = some out
        ∧ out.rows.length = otExampleDF.rows.length
        ∧ ∀ i : ℕ,
          (out.rows.get? i).map (fun r => Row.get r "order_total") =
            (otExampleDF.rows.get? i).map (fun r => PyVal.float
              ((toNumeric (Row.get r "price")).getD 0
                  * (toNumeric (Row.get r "quantity")).getD 1
                - adjCell otExampleDF Option.none r + adjCell otExampleDF Option.none r
                + adjCell otExampleDF Option.none r)) :=
  ⟨by decide, by decide,
    C3_calculate_order_total.1 otExampleDF "price" "quantity"
      Option.none Option.none Option.none "order_total" (by decide) (by decide)⟩

/-- C2: `normalize_currency` parses amount cells (numbers pass through;
strings are stripped to `[0-9.-]` before float parsing; empty or
unparseable results are null), writes `parsed * rate_map.get(cur, 1.0)`
when a currency column is present and the parsed amount unchanged when
none is given; an absent amount column raises; `"$10.00"` parses to 10
and `"€20.00"`/EUR under rate 1.1 normalizes to 22. -/
theorem C2_normalize_currency :
    (∀ n : ℤ, parseAmount (PyVal.int n) = some (n : ℚ))
    ∧ (∀ q : ℚ, parseAmount (PyVal.float q) = some q)
    ∧ (∀ s : String,
        parseAmount (PyVal.str s) =
          parseAmount (PyVal.str (String.mk (s.toList.filter isAmountChar))))
    ∧ parseAmount (PyVal.str "$10.00") = some 10
    ∧ (∀ (df : DF) (ac cc : String) (rm : List (String × ℚ)),
        ac ∈ df.cols → cc ≠ "" → cc ∈ df.cols →
          normalize_currency df ac (Option.some cc) rm =
            some (df.rows.map (fun r =>
              (parseAmount (Row.get r ac)).map (fun a => a * lookupRate rm (Row.get r cc)))))
    ∧ (∀ (df : DF) (ac : String) (rm : List (String × ℚ)),
        ac ∈ df.cols →
          normalize_currency df ac Option.none rm =
            some (df.rows.map (fun r => parseAmount (Row.get r ac))))
    ∧ (∀ (df : DF) (ac : String) (cc : Option String) (rm : List (String × ℚ)),
        ac ∉ df.cols → normalize_currency df ac cc rm = Option.none)
    ∧ normalize_currency
        ⟨["amount", "currency"],
          [[("amount", PyVal.str "€20.00"), ("currency", PyVal.str "EUR")]]⟩
        "amount" (Option.some "currency") [("EUR", 11/10)] = some [some 22] := by
  refine ⟨fun n => rfl, fun q => rfl, ?_, ?_, ?_, ?_, ?_, ?_⟩
  · intro s
    simp [parseAmount]
  · simp +decide [parseAmount, isAmountChar, parseFloatChars, parseUnsigned, parseExpPart,
      digitsVal, List.filter, List.takeWhile]
  · intro df ac cc rm hac h1 h2
    have hcond : cc ≠ "" ∧ cc ∈ df.cols := ⟨h1, h2⟩
    unfold normalize_currency
    rw [if_pos hac]
    refine congrArg some ?_
    show (if cc ≠ "" ∧ cc ∈ df.cols then
        df.rows.map (fun r =>
          match parseAmount (Row.get r ac) with
          | Option.some a => some (a * lookupRate rm (Row.get r cc))
          | Option.none => Option.none)
      else df.rows.map (fun r => parseAmount (Row.get r ac)))
      = df.rows.map (fun r =>
          (parseAmount (Row.get r ac)).map (fun a => a * lookupRate rm (Row.get r cc)))
    rw [if_pos hcond]
    refine List.map_congr_left ?_
    intro r _
    cases hp : parseAmount (Row.get r ac) <;> simp [hp]
  · intro df ac rm hac
    unfold normalize_currency
    rw [if_pos hac]
  · intro df ac cc rm hac
    unfold normalize_currency
    rw [if_neg hac]
  · simp +decide [normalize_currency, parseAmount, isAmountChar, parseFloatChars,
      parseUnsigned, parseExpPart, digitsVal, lookupRate, Row.get, List.find?,
      List.filter, List.takeWhile]
    norm_num

/-- Witness for C2 at a concrete frame with present amount and currency
columns. -/
theorem C2_witness :
    ("amount" : String) ∈ (["amount", "currency"] : List String)
    ∧ ("currency" : String) ≠ ""
    ∧ "currency" ∈ (["amount", "currency"] : List String)
    ∧ normalize_currency ⟨["amount", "currency"],
        [[("amount", PyVal.float 5), ("currency", PyVal.str "EUR")]]⟩
        "amount" (Option.some "currency") [] =
      some (((⟨["amount", "currency"],
          [[("amount", PyVal.float 5), ("currency", PyVal.str "EUR")]]⟩ : DF)).rows.map
        (fun r => (parseAmount (Row.get r "amount")).map
          (fun a => a * lookupRate [] (Row.get r "currency")))) :=
  ⟨by decide, by decide, by decide,
    C2_normalize_currency.2.2.2.2.1
      ⟨["amount", "currency"], [[("amount", PyVal.float 5), ("currency", PyVal.str "EUR")]]⟩
      "amount" "currency" [] (by decide) (by decide) (by decide)⟩

/-- C1: `flag_fraud` scores each record additively — +3 for a parsed
order total at or above the (positive) threshold, with missing or
unparseable totals counting as 0 and never triggering the rule; +2 for
present-and-differing countries; +3 by the disposable-email rule; +1 for
a falsy billing name or address — and flags exactly the records scoring
at least 4.  An order of 2000 against threshold 1000 alone is flagged; an
order of 50 with matching countries and a clean email is not. -/
theorem C1_flag_fraud_score (thresh : ℚ) (hth : 0 < thresh) :
    (∀ (df : DF) (susp : List String),
      flag_fraud df thresh susp = df.rows.map (fun r =>
        (fraudScore thresh (susp ++ DISPOSABLE_EMAIL_DOMAINS) r,
         decide (4 ≤ fraudScore thresh (susp ++ DISPOSABLE_EMAIL_DOMAINS) r))))
    ∧ (∀ (susp : List String) (r : Row),
        fraudScore thresh susp r = specFraudScore thresh susp r)
    ∧ flag_fraud ⟨["order_total"], [[("order_total", PyVal.int 2000)]]⟩ 1000 []
        = [(4, true)]
    ∧ flag_fraud
        ⟨["order_total", "shipping_country", "billing_country", "email"],
          [[("order_total", PyVal.int 50), ("shipping_country", PyVal.str "US"),
            ("billing_country", PyVal.str "US"), ("email", PyVal.str "ok@example.com")]]⟩
        1000 [] = [(1, false)] := by
  refine ⟨fun df susp => rfl, ?_, by decide, by decide⟩
  intro susp r
  have key : ∀ v : PyVal,
      (if thresh ≤ coerceTotal v then (3:ℕ) else 0) =
        (match pyFloatOpt v with
         | Option.some w => if thresh ≤ w then (3:ℕ) else 0
         | Option.none => (0:ℕ)) := by
    intro v
    cases v with
    | str s =>
      cases hp : parsePyFloat s with
      | none => simp [coerceTotal, pyFloatOpt, hp, not_le.mpr hth]
      | some q => simp [coerceTotal, pyFloatOpt, hp]
    | none => simp [coerceTotal, pyFloatOpt, not_le.mpr hth]
    | nan => simp [coerceTotal, pyFloatOpt, not_le.mpr hth]
    | date t => simp [coerceTotal, pyFloatOpt, not_le.mpr hth]
    | int n => simp [coerceTotal, pyFloatOpt]
    | float q => simp [coerceTotal, pyFloatOpt]
    | bool b => simp [coerceTotal, pyFloatOpt]
  simp only [fraudScore, specFraudScore]
  rw [key (Row.get r "order_total")]

/-- C4: `validate_orders` collects, per record, `missing_<f>` for each
falsy required field except a numeric 0, `invalid_status:<v>` for a
present truthy status outside the allowed set, and `invalid_email` for a
truthy email failing the `local@domain.tld` pattern; it is total (never
raises); a record without `order_id` yields `missing_order_id` and a
fully-populated valid record yields no issues. -/
theorem C4_validate_orders :
    (∀ (df : DF) (required allowed : List String),
      validate_orders df required allowed = df.rows.map (issuesOf required allowed))
    ∧ (∀ (required allowed : List String) (r : Row) (f : String),
        f ∈ required →
          (("missing_" ++ f) ∈ issuesOf required allowed r ↔
            ¬ PyVal.truthy (Row.get r f) ∧ pyEq (Row.get r f) (PyVal.int 0) = false))
    ∧ (∀ (required allowed : List String) (r : Row) (f : String),
        pyEq (Row.get r f) (PyVal.int 0) = true →
          ("missing_" ++ f) ∉ issuesOf required allowed r)
    ∧ (∀ (required allowed : List String) (r : Row),
        Row.has r "status" → PyVal.truthy (Row.get r "status") →
          (("invalid_status:" ++ pyStr (Row.get r "status")) ∈ issuesOf required allowed r ↔
            ¬ allowed.any (fun a => pyEq (Row.get r "status") (PyVal.str a))))
    ∧ (∀ (required allowed : List String) (r : Row),
        "invalid_email" ∈ issuesOf required allowed r ↔
          PyVal.truthy (Row.get r "email") ∧ ¬ emailMatches (pyStr (Row.get r "email")))
    ∧ issuesOf defaultRequired defaultAllowed
        [("customer_id", PyVal.str "c1"), ("order_date", PyVal.date 0),
         ("order_total", PyVal.float 10)] = ["missing_order_id"]
    ∧ issuesOf defaultRequired defaultAllowed
        [("order_id", PyVal.str "o1"), ("customer_id", PyVal.str "c1"),
         ("order_date", PyVal.date 0), ("order_total", PyVal.float 10),
         ("status", PyVal.str "paid"), ("email", PyVal.str "a@b.co")] = [] := by
  refine ⟨fun df required allowed => rfl, ?_, ?_, mem_status_iff, mem_email_iff,
    by decide, by decide⟩
  · intro required allowed r f hf
    rw [mem_missing_iff]
    exact ⟨fun h => ⟨h.2.1, h.2.2⟩, fun h => ⟨hf, h.1, h.2⟩⟩
  · intro required allowed r f h0
    rw [mem_missing_iff]
    rintro ⟨-, -, hfalse⟩
    rw [h0] at hfalse
    simp at hfalse

/-- Witness for C4 at a concrete record. -/
theorem C4_witness :
    ("order_id" : String) ∈ defaultRequired
    ∧ (("missing_" ++ "order_id") ∈
        issuesOf defaultRequired defaultAllowed [("customer_id", PyVal.str "c1")] ↔
      ¬ PyVal.truthy (Row.get [("customer_id", PyVal.str "c1")] "order_id")
        ∧ pyEq (Row.get [("customer_id", PyVal.str "c1")] "order_id") (PyVal.int 0)
            = false) :=
  ⟨by decide,
    C4_validate_orders.2.1 defaultRequired defaultAllowed
      [("customer_id", PyVal.str "c1")] "order_id" (by decide)⟩

/-- C10: a required field holding float NaN — the pandas missing-value
marker — is never reported missing, since NaN is truthy (and `!= 0`), so
the `missing_<field>` check passes it. -/
theorem C10_nan_required_field_not_missing
    (required allowed : List String) (r : Row) (f : String)
    (h : Row.get r f = PyVal.nan) :
    ("missing_" ++ f) ∉ issuesOf required allowed r := by
  rw [mem_missing_iff]
  rintro ⟨-, htr, -⟩
  rw [h] at htr
  exact htr rfl

/-- Witness for C10: a record whose `order_total` cell is NaN. -/
theorem C10_witness :
    Row.get [("order_total", PyVal.nan)] "order_total" = PyVal.nan
    ∧ ("missing_" ++ "order_total") ∉
        issuesOf defaultRequired defaultAllowed [("order_total", PyVal.nan)] :=
  ⟨rfl, C10_nan_required_field_not_missing defaultRequired defaultAllowed
    [("order_total", PyVal.nan)] "order_total" rfl⟩

/-- Witness for C1 at the default threshold 1000. -/
theorem C1_witness :
    (0 : ℚ) < 1000
    ∧ fraudScore 1000 ["x.com"] [("order_total", PyVal.int 2000)]
        = specFraudScore 1000 ["x.com"] [("order_total", PyVal.int 2000)] :=
  ⟨by decide,
    (C1_flag_fraud_score 1000 (by decide)).2.1 ["x.com"] [("order_total", PyVal.int 2000)]⟩

/-- Counterexample to C7 as stated: with the documented `ffill` numeric
strategy, the column `[null, 1]` — which has a non-null value — keeps
its leading null, because forward fill has nothing before position 0. -/
theorem C7_counterexample :
    Option.some (1 : ℚ) ∈ [Option.none, Option.some (1 : ℚ)]
    ∧ Option.none ∈ imputeNumeric NumStrategy.ffill [Option.none, Option.some (1 : ℚ)] := by
  decide

theorem mem_fillnaCol_isSome {α : Type} (col : List (Option α)) (v : α) :
    ∀ x ∈ fillnaCol col v, x.isSome := by
  intro x hx
  obtain ⟨c, _, rfl⟩ := List.mem_map.mp hx
  cases c <;> simp

/-- C7 amended: value-filling strategies (numeric median/mean/zero and
unrecognized, categorical mode/unknown and unrecognized, datetime epoch)
leave no null in any column at all; the directional `ffill`/`bfill`
strategies may leave leading resp. trailing nulls, and an unrecognized
datetime strategy leaves the column unchanged.  The median strategy on
`[1, null, 3]` fills the null with 2, and a null computed fill value
(median of an all-null column) degrades to zero. -/
theorem C7_impute_missing_amended :
    (∀ (strat : NumStrategy) (col : List (Option ℚ)),
      strat ≠ NumStrategy.ffill → strat ≠ NumStrategy.bfill →
        ∀ x ∈ imputeNumeric strat col, x.isSome)
    ∧ (∀ (strat : CatStrategy) (col : List (Option String)),
        strat ≠ CatStrategy.ffill → strat ≠ CatStrategy.bfill →
          ∀ x ∈ imputeCategorical strat col, x.isSome)
    ∧ (∀ col : List (Option ℤ), ∀ x ∈ imputeDatetime DtStrategy.epoch col, x.isSome)
    ∧ imputeNumeric NumStrategy.median [Option.some 1, Option.none, Option.some 3]
        = [Option.some 1, Option.some 2, Option.some 3]
    ∧ imputeNumeric NumStrategy.median [Option.none, Option.none]
        = [Option.some 0, Option.some 0] := by
  refine ⟨?_, ?_, ?_, ?_, by decide⟩
  · intro strat col h1 h2
    cases strat with
    | ffill => exact absurd rfl h1
    | bfill => exact absurd rfl h2
    | median => exact mem_fillnaCol_isSome _ _
    | mean => exact mem_fillnaCol_isSome _ _
    | zero => exact mem_fillnaCol_isSome _ _
    | other => exact mem_fillnaCol_isSome _ _
  · intro strat col h1 h2
    cases strat with
    | ffill => exact absurd rfl h1
    | bfill => exact absurd rfl h2
    | mode => exact mem_fillnaCol_isSome _ _
    | unknown => exact mem_fillnaCol_isSome _ _
    | other => exact mem_fillnaCol_isSome _ _
  · intro col
    exact mem_fillnaCol_isSome _ _
  · simp +decide [imputeNumeric, medianQ, nonNull, sortRats, insertRat, fillnaCol,
      List.filterMap]
    norm_num

/-- Witness for C7's amended statement with the `zero` strategy. -/
theorem C7_witness :
    NumStrategy.zero ≠ NumStrategy.ffill
    ∧ NumStrategy.zero ≠ NumStrategy.bfill
    ∧ Option.some (0 : ℚ) ∈ imputeNumeric NumStrategy.zero [Option.none]
    ∧ (Option.some (0 : ℚ)).isSome :=
  ⟨by decide, by decide, by decide,
    C7_impute_missing_amended.1 NumStrategy.zero [Option.none]
      (by decide) (by decide) _ (by decide)⟩

/-- Counterexample to C8 as stated: caller-supplied domains are not
lowercased, so the email `a@Evil.com`, whose domain equals the supplied
domain `Evil.com` case-insensitively, scores 0 — the code compares the
lowercased email domain `evil.com` against the unioned set verbatim. -/
theorem C8_counterexample :
    emailDomain (PyVal.str "a@Evil.com") = Option.some "evil.com"
    ∧ "evil.com" = lowerStr "Evil.com"
    ∧ "evil.com" ∉ ["Evil.com"] ++ DISPOSABLE_EMAIL_DOMAINS
    ∧ fraudScore 1000 (["Evil.com"] ++ DISPOSABLE_EMAIL_DOMAINS)
        [("email", PyVal.str "a@Evil.com"), ("billing_name", PyVal.str "n"),
         ("billing_address", PyVal.str "x")] = 0 := by
  decide

/-- C8 amended: the disposable-email rule adds +3 exactly when the email
is a nonempty string splitting on `@` into exactly two parts whose
lower-cased second part is nonempty and is literally a member of the
unioned suspicious set.  The built-in domains are already lowercase, so
matching is case-insensitive for them, but a caller-supplied domain
matches only emails whose lowercased domain equals it verbatim.
Missing, non-string, and zero-or-many-`@` emails never match, and the
rule is all-or-nothing (0 or 3). -/
theorem C8_email_rule_amended :
    (∀ (susp : List String) (v : PyVal),
      emailRuleScore susp v = 3 ↔
        ∃ s a b, v = PyVal.str s ∧ s ≠ ""
          ∧ splitChar '@' s.toList = [a, b]
          ∧ lowerStr (String.mk b) ≠ ""
          ∧ lowerStr (String.mk b) ∈ susp)
    ∧ (∀ (susp : List String) (v : PyVal),
        emailRuleScore susp v = 0 ∨ emailRuleScore susp v = 3)
    ∧ (∀ d ∈ DISPOSABLE_EMAIL_DOMAINS, lowerStr d = d)
    ∧ (∀ (susp : List String) (s : String),
        (splitChar '@' s.toList).length ≠ 2 → emailRuleScore susp (PyVal.str s) = 0)
    ∧ (∀ (susp : List String) (v : PyVal),
        (∀ s : String, v ≠ PyVal.str s) → emailRuleScore susp v = 0)
    ∧ (∀ (thresh : ℚ) (susp : List String) (r : Row),
        emailRuleScore susp (Row.get r "email") ≤ fraudScore thresh susp r) := by
  have emailDomain_str : ∀ s : String,
      emailDomain (PyVal.str s) =
        if s = "" then Option.none
        else
          match splitChar '@' s.toList with
          | [_, d] => some (lowerStr (String.mk d))
          | _ => Option.none := fun s => rfl
  refine ⟨?_, ?_, by decide, ?_, ?_, ?_⟩
  · intro susp v
    constructor
    · intro h3
      cases v with
      | str s =>
        unfold emailRuleScore at h3
        rw [emailDomain_str] at h3
        by_cases hs : s = ""
        · rw [if_pos hs] at h3
          simp at h3
        · rw [if_neg hs] at h3
          rcases hsp : splitChar '@' s.toList with _ | ⟨a, t⟩
          · rw [hsp] at h3
            simp at h3
          · rcases t with _ | ⟨b, t2⟩
            · rw [hsp] at h3
              simp at h3
            · rcases t2 with _ | ⟨c, t3⟩
              · rw [hsp] at h3
                simp at h3
                exact ⟨s, a, b, rfl, hs, hsp, h3.1, h3.2⟩
              · rw [hsp] at h3
                simp at h3
      | none => simp [emailRuleScore, emailDomain] at h3
      | nan => simp [emailRuleScore, emailDomain] at h3
      | int n => simp [emailRuleScore, emailDomain] at h3
      | float q => simp [emailRuleScore, emailDomain] at h3
      | bool b => simp [emailRuleScore, emailDomain] at h3
      | date t => simp [emailRuleScore, emailDomain] at h3
    · rintro ⟨s, a, b, rfl, hs, hsp, h1, h2⟩
      unfold emailRuleScore
      rw [emailDomain_str, if_neg hs, hsp]
      simp [h1, h2]
  · intro susp v
    unfold emailRuleScore
    cases emailDomain v with
    | none => exact Or.inl rfl
    | some d =>
      by_cases hc : d ≠ "" ∧ d ∈ susp
      · exact Or.inr (by simp [hc])
      · exact Or.inl (by simp [hc])
  · intro susp s hlen
    unfold emailRuleScore
    rw [emailDomain_str]
    by_cases hs : s = ""
    · rw [if_pos hs]
    · rw [if_neg hs]
      rcases hsp : splitChar '@' s.toList with _ | ⟨a, t⟩
      · rfl
      · rcases t with _ | ⟨b, t2⟩
        · rfl
        · rcases t2 with _ | ⟨c, t3⟩
          · exact absurd (by rw [hsp]; rfl) hlen
          · rfl
  · intro susp v hv
    cases v with
    | str s => exact absurd rfl (hv s)
    | none => rfl
    | nan => rfl
    | int n => rfl
    | float q => rfl
    | bool b => rfl
    | date t => rfl
  · intro thresh susp r
    unfold fraudScore
    exact le_trans (Nat.le_add_left _ _) (Nat.le_add_right _ _)

/-- Witness for C8's amended statement on a malformed (no `@`) email. -/
theorem C8_witness :
    (splitChar '@' ("ab".toList)).length ≠ 2
    ∧ emailRuleScore ["mailinator.com"] (PyVal.str "ab") = 0 :=
  ⟨by decide, C8_email_rule_amended.2.2.2.1 ["mailinator.com"] "ab" (by decide)⟩

/-- Counterexample to C9 as stated: `calculate_clv` reads the wall clock
(`pd.Timestamp.utcnow()`), so two runs of the stage pipeline on the same
already-normalized batch whose clock readings differ by one day disagree
on `recency_days` — the output is not identical across reruns. -/
theorem C9_counterexample :
    ((stage_pipeline pipeExampleDF 1000 [] defaultRequired defaultAllowed 0).map
        (fun p => p.2.2.2.map CLVRow.recency_days))
      ≠ ((stage_pipeline pipeExampleDF 1000 [] defaultRequired defaultAllowed 86400).map
        (fun p => p.2.2.2.map CLVRow.recency_days))
    ∧ stage_pipeline pipeExampleDF 1000 [] defaultRequired defaultAllowed 0
      ≠ stage_pipeline pipeExampleDF 1000 [] defaultRequired defaultAllowed 86400 := by
  refine ⟨?_, ?_⟩
  · decide
  · intro h
    have := congrArg (Option.map (fun p => p.2.2.2.map CLVRow.recency_days)) h
    revert this
    decide

/-- C9 amended: every stage except CLV is a pure function of the batch,
and CLV depends on the clock only through `recency_days`; re-running the
pipeline yields identical output whenever the two runs read the same
clock value, but `recency_days` may differ across clock readings. -/
theorem C9_pipeline_amended :
    (∀ (df : DF) (thresh : ℚ) (susp required allowed : List String) (n1 n2 : ℤ),
      (stage_pipeline df thresh susp required allowed n1).map (fun p => p.1)
          = (stage_pipeline df thresh susp required allowed n2).map (fun p => p.1)
      ∧ (stage_pipeline df thresh susp required allowed n1).map (fun p => p.2.1)
          = (stage_pipeline df thresh susp required allowed n2).map (fun p => p.2.1)
      ∧ (stage_pipeline df thresh susp required allowed n1).map (fun p => p.2.2.1)
          = (stage_pipeline df thresh susp required allowed n2).map (fun p => p.2.2.1)
      ∧ (stage_pipeline df thresh susp required allowed n1).map
            (fun p => p.2.2.2.map CLVRow.noRecency)
          = (stage_pipeline df thresh susp required allowed n2).map
            (fun p => p.2.2.2.map CLVRow.noRecency))
    ∧ (∀ (df : DF) (thresh : ℚ) (susp required allowed : List String) (n1 n2 : ℤ),
        n1 = n2 →
          stage_pipeline df thresh susp required allowed n1
            = stage_pipeline df thresh susp required allowed n2) := by
  refine ⟨?_, ?_⟩
  · intro df thresh susp required allowed n1 n2
    unfold stage_pipeline
    cases hdf : calculate_order_total_df df "price" "quantity"
        Option.none Option.none Option.none "order_total" with
    | none => exact ⟨rfl, rfl, rfl, rfl⟩
    | some df1 =>
      unfold calculate_clv
      simp only [Option.some_bind]
      by_cases hc : "order_total" ∈ df1.cols ∧ "customer_id" ∈ df1.cols
      · rw [if_pos hc, if_pos hc]
        refine ⟨rfl, rfl, rfl, ?_⟩
        show some (((clvKeys df1 "customer_id").map
              (clvBuildRow df1 "customer_id" "order_total" n1)).map CLVRow.noRecency)
            = some (((clvKeys df1 "customer_id").map
              (clvBuildRow df1 "customer_id" "order_total" n2)).map CLVRow.noRecency)
        refine congrArg some ?_
        rw [List.map_map, List.map_map]
        exact List.map_congr_left (fun c _ => rfl)
      · rw [if_neg hc, if_neg hc]
        exact ⟨rfl, rfl, rfl, rfl⟩
  · intro df thresh susp required allowed n1 n2 h
    rw [h]

/-- Witness for C9's amended statement with an equal clock reading. -/
theorem C9_witness :
    (0 : ℤ) = 0
    ∧ stage_pipeline pipeExampleDF 1000 [] defaultRequired defaultAllowed 0
        = stage_pipeline pipeExampleDF 1000 [] defaultRequired defaultAllowed 0 :=
  ⟨rfl, C9_pipeline_amended.2 pipeExampleDF 1000 [] defaultRequired defaultAllowed 0 0 rfl⟩

end ETL
